import Mathlib

/-!
Verification of the CKEditor 5 cloud-services token registry
(`src/packages/ckeditor5-cloud-services/src/cloudservices.ts`, class
`CloudServices`).

The registry is single-threaded and event-driven: the only suspension point
inside `registerTokenUrl` is the `await ... createToken( tokenUrl ).init()`
call.  We embed the registry as a pure state machine over `RegState`.

Token *instances* are modelled by numeric ids allocated from a counter
(`nextId`); `fetchCount` counts every `createToken(...).init()` invocation
(one underlying fetch / provider call each); `destroyedIds` records the set
of token instances on which `token.destroy()` has been invoked.  The map
`_tokens` is an association list with JavaScript `Map` semantics: lookup by
`SameValueZero` key equality (strings by value, function references by
identity — captured by `TokenUrl`'s `DecidableEq`), `set` replaces in place
keeping insertion order, iteration in insertion order.
-/

namespace CloudServicesSpec

/-- `type TokenUrl = string | ( () => Promise<string> )`.
A URL string compares by value; a provider function compares by reference —
we name each distinct function reference with a `Nat`. -/
inductive TokenUrl where
  | url (s : String)
  | provider (ref : Nat)
deriving DecidableEq, Repr

/-- Token instances are identified by the order of their creation. -/
abbrev TokenId := Nat

/-- Errors surfaced by the registry: the synchronous
`cloudservices-token-not-registered` `CKEditorError` thrown by `getTokenFor`,
and a rejected `createToken( tokenUrl ).init()` promise propagated out of
`registerTokenUrl` / `init`. -/
inductive CSError where
  | tokenNotRegistered
  | initRejected
deriving DecidableEq, Repr

/-- `Map.get`: first (unique) binding of the key, if any. -/
def mapGet (m : List (TokenUrl × TokenId)) (u : TokenUrl) : Option TokenId :=
  match m with
  | [] => none
  | (k, v) :: rest => if k = u then some v else mapGet rest u

/-- `Map.set`: replace the binding in place if the key is present, else
append at the end (JS `Map` keeps insertion order). -/
def mapSet (m : List (TokenUrl × TokenId)) (u : TokenUrl) (t : TokenId) :
    List (TokenUrl × TokenId) :=
  match m with
  | [] => [(u, t)]
  | (k, v) :: rest => if k = u then (k, t) :: rest else (k, v) :: mapSet rest u t

/-- `Map.values()` in insertion order. -/
def mapValues (m : List (TokenUrl × TokenId)) : List TokenId :=
  m.map Prod.snd

/-- The observable state of one `CloudServices` plugin instance, plus the
bookkeeping (`nextId`, `fetchCount`, `destroyedIds`) that makes token
instance identity, fetch counting and `token.destroy()` calls observable. -/
structure RegState where
  /-- `private readonly _tokens = new Map<TokenUrl, InitializedToken>()` -/
  tokens : List (TokenUrl × TokenId)
  /-- `public token: InitializedToken | null = null` (the primary token) -/
  token : Option TokenId
  /-- next fresh token-instance id (`createToken` allocates from here) -/
  nextId : Nat
  /-- number of `createToken(...).init()` invocations so far -/
  fetchCount : Nat
  /-- set of token ids on which `destroy()` has been invoked -/
  destroyedIds : List TokenId
deriving DecidableEq, Repr

/-- The state of a freshly constructed plugin: empty map, `token = null`. -/
def freshState : RegState :=
  { tokens := [], token := none, nextId := 0, fetchCount := 0, destroyedIds := [] }

/-- `getTokenFor( tokenUrl )`: synchronous lookup; throws the
`cloudservices-token-not-registered` error when the key is absent.  It is a
pure read — the state component of the result is the input state, because the
source performs no mutation. -/
def getTokenFor (s : RegState) (u : TokenUrl) : RegState × Except CSError TokenId :=
  match mapGet s.tokens u with
  | none => (s, Except.error CSError.tokenNotRegistered)
  | some t => (s, Except.ok t)

/-- Result of the synchronous prefix of `registerTokenUrl`, up to the
suspension point of `await createToken( tokenUrl ).init()`. -/
inductive StartResult where
  | cached (t : TokenId)
  | pending (t : TokenId)
deriving DecidableEq, Repr

/-- The synchronous prefix of `registerTokenUrl( tokenUrl )`: the
`this._tokens.has( tokenUrl )` check; on a hit the call returns the cached
token via `getTokenFor`, on a miss `createToken( tokenUrl ).init()` is
invoked (a fresh token instance, one underlying fetch) and the call suspends
at the `await`.  The map is NOT updated here. -/
def registerStart (s : RegState) (u : TokenUrl) : RegState × StartResult :=
  match mapGet s.tokens u with
  | some t => (s, StartResult.cached t)
  | none =>
      ({ s with nextId := s.nextId + 1, fetchCount := s.fetchCount + 1 },
        StartResult.pending s.nextId)

/-- The continuation of `registerTokenUrl` after the awaited `init()`
settles: on fulfilment `this._tokens.set( tokenUrl, token )` runs and the
token is returned; on rejection the `async` function's promise rejects with
the map untouched. -/
def registerResume (s : RegState) (u : TokenUrl) (t : TokenId) (ok : Bool) :
    RegState × Except CSError TokenId :=
  if ok then ({ s with tokens := mapSet s.tokens u t }, Except.ok t)
  else (s, Except.error CSError.initRejected)

/-- `registerTokenUrl( tokenUrl )` run without interleaving: the synchronous
prefix followed immediately by the continuation.  `ok` is whether the awaited
`init()` fulfils (network/provider success) or rejects. -/
def registerTokenUrl (s : RegState) (u : TokenUrl) (ok : Bool) :
    RegState × Except CSError TokenId :=
  match registerStart s u with
  | (s1, StartResult.cached _) => getTokenFor s1 u
  | (s1, StartResult.pending t) => registerResume s1 u t ok

/-- JavaScript truthiness of `this.tokenUrl` as tested by
`if ( !this.tokenUrl )`: `undefined` and the empty string are falsy, any
other string and any function are truthy. -/
def tokenUrlTruthy : Option TokenUrl → Bool
  | none => false
  | some (TokenUrl.url s) => !(s = "")
  | some (TokenUrl.provider _) => true

/-- `init()`: reads `config.cloudServices`; with no (truthy) `tokenUrl` it
sets `this.token = null` and returns successfully; otherwise it awaits
`createToken( this.tokenUrl ).init()`, assigns the result to `this.token`
and inserts it into `this._tokens`; a rejected `init()` propagates and
leaves both fields untouched. -/
def init (s : RegState) (cfgTokenUrl : Option TokenUrl) (ok : Bool) :
    RegState × Except CSError Unit :=
  if tokenUrlTruthy cfgTokenUrl then
    match cfgTokenUrl with
    | none => ({ s with token := none }, Except.ok ())
    | some u =>
        let t := s.nextId
        let s1 := { s with nextId := s.nextId + 1, fetchCount := s.fetchCount + 1 }
        if ok then
          ({ s1 with token := some t, tokens := mapSet s1.tokens u t }, Except.ok ())
        else (s1, Except.error CSError.initRejected)
  else ({ s with token := none }, Except.ok ())

/-- Insert a token id into the set of destroyed ids.  `token.destroy()` is
idempotent (spec §4.2; `token/token.ts` is not in the source tree), so the
set records "destroy has been invoked", without multiplicity. -/
def insertId (l : List TokenId) (i : TokenId) : List TokenId :=
  if i ∈ l then l else i :: l

/-- `destroy()` (override): `super.destroy()` then
`for ( const token of this._tokens.values() ) token.destroy()`.  The map and
the `token` field are NOT cleared. -/
def destroyReg (s : RegState) : RegState :=
  { s with destroyedIds := (mapValues s.tokens).foldl insertId s.destroyedIds }

/-- Operations a consumer can perform on a registry after initialization
(each `register` is run without interleaving; `ok` is its `init()` outcome). -/
inductive Op where
  | register (u : TokenUrl) (ok : Bool)
  | getToken (u : TokenUrl)
  | teardown
deriving DecidableEq, Repr

/-- One operation's effect on the registry state. -/
def step (s : RegState) : Op → RegState
  | Op.register u ok => (registerTokenUrl s u ok).1
  | Op.getToken u => (getTokenFor s u).1
  | Op.teardown => destroyReg s

/-- Run a sequence of operations left to right. -/
def run (s : RegState) (ops : List Op) : RegState :=
  ops.foldl step s

/-- Modelled from the spec: the `Token` state machine of §4.2
(`src/token/token.ts` is not in the source tree).  States
`CREATED → INITIALIZING → VALID → DESTROYED`, with `value` absent before the
first successful initialization and after destruction. -/
inductive TokenPhase where
  | created
  | initializing
  | valid
  | destroyed
deriving DecidableEq, Repr

/-- Modelled from the spec: a `Token`'s observable attributes (§3): the
current credential `value` (absent before first success / after destroy) and
its lifecycle `phase`. -/
structure Token where
  phase : TokenPhase
  value : Option String
deriving DecidableEq, Repr

/-- Modelled from the spec: the background refresh step (§4.2, §7).  A
refresh only happens while the token is `VALID`; on success the value is
replaced atomically; on failure (`result = none`, a `RefreshFailure`) the
error is swallowed locally — the token keeps its last known-valid value and
stays `VALID`, and no exception is surfaced to holders (the function is
total). -/
def refreshToken (t : Token) (result : Option String) : Token :=
  match t.phase, result with
  | TokenPhase.valid, some v => { t with value := some v }
  | TokenPhase.valid, none => t
  | _, _ => t

/-! ### Map lemmas -/

theorem mapGet_mapSet_self (m : List (TokenUrl × TokenId)) (u : TokenUrl) (t : TokenId) :
    mapGet (mapSet m u t) u = some t := by
  induction m with
  | nil => simp [mapGet, mapSet]
  | cons kv rest ih =>
      obtain ⟨k, v⟩ := kv
      by_cases h : k = u
      · simp [mapGet, mapSet, h]
      · simp [mapGet, mapSet, h, ih]

theorem mapGet_mapSet_ne (m : List (TokenUrl × TokenId)) (u w : TokenUrl) (t : TokenId)
    (h : u ≠ w) : mapGet (mapSet m u t) w = mapGet m w :=
  by
  induction m with
  | nil => simp [mapGet, mapSet, h]
  | cons kv rest ih =>
      obtain ⟨k, v⟩ := kv
      by_cases hk : k = u
      · subst hk
        simp [mapGet, mapSet, h]
      · simp [mapGet, mapSet, hk, ih]

theorem mem_mapValues_of_mapGet (m : List (TokenUrl × TokenId)) (u : TokenUrl) (t : TokenId)
    (h : mapGet m u = some t) : t ∈ mapValues m := by
  induction m with
  | nil => simp [mapGet] at h
  | cons kv rest ih =>
      obtain ⟨k, v⟩ := kv
      by_cases hk : k = u
      · simp [mapGet, hk] at h
        simp [mapValues, h]
      · simp [mapGet, hk] at h
        simp [mapValues] at ih ⊢
        exact Or.inr (ih h)

/-! ### Unfolding lemmas for `registerTokenUrl` -/

theorem registerTokenUrl_hit (s : RegState) (u : TokenUrl) (t : TokenId) (ok : Bool)
    (h : mapGet s.tokens u = some t) : registerTokenUrl s u ok = (s, Except.ok t) := by
  simp [registerTokenUrl, registerStart, getTokenFor, h]

theorem registerTokenUrl_miss_ok (s : RegState) (u : TokenUrl)
    (h : mapGet s.tokens u = none) :
    registerTokenUrl s u true =
      ({ s with nextId := s.nextId + 1, fetchCount := s.fetchCount + 1, tokens := mapSet s.tokens u s.nextId }, Except.ok s.nextId) := by
  simp [registerTokenUrl, registerStart, registerResume, h]

theorem registerTokenUrl_miss_fail (s : RegState) (u : TokenUrl)
    (h : mapGet s.tokens u = none) :
    registerTokenUrl s u false =
      ({ s with nextId := s.nextId + 1, fetchCount := s.fetchCount + 1 },
        Except.error CSError.initRejected) := by
  simp [registerTokenUrl, registerStart, registerResume, h]

/-! ### What a single step does to one key of the map -/

theorem mapGet_step_none (s : RegState) (op : Op) (u : TokenUrl) :
    mapGet (step s op).tokens u = none ↔
      mapGet s.tokens u = none ∧ op ≠ Op.register u true := by
  cases op with
  | register v ok =>
      rcases hv : mapGet s.tokens v with _ | t
      · cases ok with
        | true =>
            rw [step, registerTokenUrl_miss_ok s v hv]
            by_cases huv : v = u
            · subst huv
              simp [mapGet_mapSet_self, hv]
            · simp [mapGet_mapSet_ne _ v u _ huv, huv]
        | false =>
            rw [step, registerTokenUrl_miss_fail s v hv]
            simp
      · rw [step, registerTokenUrl_hit s v t ok hv]
        by_cases huv : v = u
        · subst huv
          simp [hv]
        · simp [huv]
  | getToken v =>
      rcases hv : mapGet s.tokens v with _ | t <;> simp [step, getTokenFor, hv]
  | teardown => simp [step, destroyReg]

theorem mapGet_step_some (s : RegState) (op : Op) (u : TokenUrl) (t : TokenId)
    (h : mapGet s.tokens u = some t) : mapGet (step s op).tokens u = some t := by
  cases op with
  | register v ok =>
      rcases hv : mapGet s.tokens v with _ | t'
      · have huv : v ≠ u := by
          intro he; subst he; rw [hv] at h; exact Option.noConfusion h
        cases ok with
        | true =>
            rw [step, registerTokenUrl_miss_ok s v hv]
            simpa [mapGet_mapSet_ne _ _ _ _ huv] using h
        | false =>
            rw [step, registerTokenUrl_miss_fail s v hv]
            simpa using h
      · rw [step, registerTokenUrl_hit s v t' ok hv]
        simpa using h
  | getToken v =>
      simp only [step, getTokenFor]
      cases mapGet s.tokens v <;> simpa using h
  | teardown => simpa [step, destroyReg] using h

/-! ### Trace-level lemmas -/

theorem mapGet_run_none (ops : List Op) (s : RegState) (u : TokenUrl) :
    mapGet (run s ops).tokens u = none ↔
      mapGet s.tokens u = none ∧ Op.register u true ∉ ops := by
  induction ops generalizing s with
  | nil => simp [run]
  | cons op rest ih =>
      have hstep : run s (op :: rest) = run (step s op) rest := rfl
      rw [hstep, ih, mapGet_step_none]
      simp [List.mem_cons, not_or, and_assoc, eq_comm]

theorem mapGet_run_some (ops : List Op) (s : RegState) (u : TokenUrl) (t : TokenId)
    (h : mapGet s.tokens u = some t) : mapGet (run s ops).tokens u = some t := by
  induction ops generalizing s with
  | nil => simpa [run] using h
  | cons op rest ih =>
      have hstep : run s (op :: rest) = run (step s op) rest := rfl
      rw [hstep]
      exact ih _ (mapGet_step_some s op u t h)

/-! ### Destroyed-set lemmas -/

theorem mem_insertId (l : List TokenId) (i j : TokenId) :
    j ∈ insertId l i ↔ j ∈ l ∨ j = i := by
  by_cases h : i ∈ l
  · simp only [insertId, if_pos h]
    constructor
    · exact Or.inl
    · rintro (hj | rfl)
      · exact hj
      · exact h
  · simp only [insertId, if_neg h, List.mem_cons]
    tauto

theorem mem_foldl_insertId (ids l : List TokenId) (j : TokenId) :
    j ∈ ids.foldl insertId l ↔ j ∈ l ∨ j ∈ ids := by
  induction ids generalizing l with
  | nil => simp
  | cons i rest ih =>
      simp only [List.foldl_cons, ih, mem_insertId, List.mem_cons]
      tauto

theorem foldl_insertId_of_subset (ids l : List TokenId) (h : ∀ x ∈ ids, x ∈ l) :
    ids.foldl insertId l = l := by
  induction ids generalizing l with
  | nil => rfl
  | cons i rest ih =>
      have hi : i ∈ l := h i (List.mem_cons_self i rest)
      simp only [List.foldl_cons, insertId, if_pos hi]
      exact ih l fun x hx => h x (List.mem_cons_of_mem i hx)

theorem mem_destroyedIds_destroyReg (s : RegState) (t : TokenId)
    (h : t ∈ mapValues s.tokens) : t ∈ (destroyReg s).destroyedIds := by
  simp only [destroyReg]
  rw [mem_foldl_insertId]
  exact Or.inr h

theorem getTokenFor_error_iff (s : RegState) (u : TokenUrl) :
    (getTokenFor s u).2 = Except.error CSError.tokenNotRegistered ↔
      mapGet s.tokens u = none := by
  rcases h : mapGet s.tokens u with _ | t <;> simp [getTokenFor, h]

theorem mapGet_init_none (cfg : Option TokenUrl) (ok : Bool) (u : TokenUrl) :
    mapGet (init freshState cfg ok).1.tokens u = none ↔
      ¬(cfg = some u ∧ tokenUrlTruthy cfg = true ∧ ok = true) := by
  rcases cfg with _ | v
  · simp [init, tokenUrlTruthy, freshState, mapGet]
  · rcases htr : tokenUrlTruthy (some v) with _ | _
    · simp [init, htr, freshState, mapGet]
    · cases ok with
      | true =>
          by_cases huv : v = u
          · subst huv
            simp [init, htr, freshState, mapGet_mapSet_self]
          · simp [init, htr, freshState, mapGet_mapSet_ne _ v u _ huv, mapGet, huv]
      | false => simp [init, htr, freshState, mapGet]

theorem init_token_established (cfg : Option TokenUrl) (ok : Bool) (t : TokenId)
    (h : (init freshState cfg ok).1.token = some t) :
    ∃ u, mapGet (init freshState cfg ok).1.tokens u = some t := by
  rcases cfg with _ | v
  · simp [init, tokenUrlTruthy] at h
  · rcases htr : tokenUrlTruthy (some v) with _ | _
    · simp [init, htr] at h
    · cases ok with
      | true =>
          simp [init, htr, freshState] at h
          exact ⟨v, by simp [init, htr, freshState, mapGet_mapSet_self, h]⟩
      | false => simp [init, htr, freshState] at h

/-- C1.  The claim fails on the code: `registerTokenUrl` inserts the token
into `_tokens` only after the awaited `init()` fulfils, so a second call for
the same identity that starts before the first completes misses the map,
invokes `createToken(...).init()` a second time, and resolves to a distinct
token instance.  Concretely from the fresh state with `u = "https://ex/token"`:
both in-flight calls get distinct pending instances `0` and `1`, two fetches
occur, and the two calls resolve to `ok 0` and `ok 1`. -/
theorem C1_counterexample :
    (registerStart freshState (TokenUrl.url "https://ex/token")).2 = StartResult.pending 0 ∧
    (registerStart (registerStart freshState (TokenUrl.url "https://ex/token")).1 (TokenUrl.url "https://ex/token")).2 = StartResult.pending 1 ∧
    (registerStart (registerStart freshState (TokenUrl.url "https://ex/token")).1 (TokenUrl.url "https://ex/token")).1.fetchCount = 2 ∧
    (registerResume (registerStart (registerStart freshState (TokenUrl.url "https://ex/token")).1 (TokenUrl.url "https://ex/token")).1 (TokenUrl.url "https://ex/token") 0 true).2 = Except.ok 0 ∧
    (registerResume (registerResume (registerStart (registerStart freshState (TokenUrl.url "https://ex/token")).1 (TokenUrl.url "https://ex/token")).1 (TokenUrl.url "https://ex/token") 0 true).1 (TokenUrl.url "https://ex/token") 1 true).2 = Except.ok 1 ∧
    (0 : TokenId) ≠ 1 := by
  refine ⟨rfl, rfl, rfl, rfl, rfl, by decide⟩

/-- C1 (amended).  Deduplication applies only to calls that start after a
registration for `u` has completed (then the cached instance is returned with
no new fetch); a second call issued while the first is still awaiting its
`init()` misses the map, creates its own token instance and performs its own
fetch, and each call resolves to its own instance. -/
theorem C1_amended (s : RegState) (u : TokenUrl) :
    (mapGet s.tokens u = none →
      registerStart s u =
        ({ s with nextId := s.nextId + 1, fetchCount := s.fetchCount + 1 }, StartResult.pending s.nextId) ∧
      registerStart { s with nextId := s.nextId + 1, fetchCount := s.fetchCount + 1 } u =
        ({ s with nextId := s.nextId + 2, fetchCount := s.fetchCount + 2 }, StartResult.pending (s.nextId + 1)) ∧
      s.nextId ≠ s.nextId + 1) ∧
    (∀ s2 t, (registerResume s2 u t true).2 = Except.ok t) ∧
    (∀ t, mapGet s.tokens u = some t → registerStart s u = (s, StartResult.cached t)) := by
  refine ⟨fun h => ⟨?_, ?_, ?_⟩, fun s2 t => rfl, fun t h => ?_⟩
  · simp [registerStart, h]
  · simp [registerStart, h]
  · omega
  · simp [registerStart, h]

theorem C1_amended_witness :
    registerStart freshState (TokenUrl.url "https://ex/token") =
      ({ freshState with nextId := 1, fetchCount := 1 }, StartResult.pending 0) ∧
    registerStart { freshState with nextId := 1, fetchCount := 1 } (TokenUrl.url "https://ex/token") =
      ({ freshState with nextId := 2, fetchCount := 2 }, StartResult.pending 1) := by
  have h := (C1_amended freshState (TokenUrl.url "https://ex/token")).1 rfl
  exact ⟨h.1, h.2.1⟩

/-- C2.  The claim fails on the code: `destroy()` calls `token.destroy()` on
every cached token but never clears `_tokens`, so after registering `u1` and
`u2` and destroying the registry, `getTokenFor` still returns the (destroyed)
cached instances instead of throwing `cloudservices-token-not-registered`. -/
theorem C2_counterexample :
    (getTokenFor (destroyReg (registerTokenUrl (registerTokenUrl freshState (TokenUrl.url "u1") true).1 (TokenUrl.url "u2") true).1) (TokenUrl.url "u1")).2 ≠ Except.error CSError.tokenNotRegistered ∧
    (getTokenFor (destroyReg (registerTokenUrl (registerTokenUrl freshState (TokenUrl.url "u1") true).1 (TokenUrl.url "u2") true).1) (TokenUrl.url "u2")).2 ≠ Except.error CSError.tokenNotRegistered ∧
    (getTokenFor (destroyReg (registerTokenUrl (registerTokenUrl freshState (TokenUrl.url "u1") true).1 (TokenUrl.url "u2") true).1) (TokenUrl.url "u1")).2 = Except.ok 0 ∧
    (getTokenFor (destroyReg (registerTokenUrl (registerTokenUrl freshState (TokenUrl.url "u1") true).1 (TokenUrl.url "u2") true).1) (TokenUrl.url "u2")).2 = Except.ok 1 := by
  exact ⟨fun h => Except.noConfusion h, fun h => Except.noConfusion h, rfl, rfl⟩

/-- C2 (amended).  Registering two distinct unregistered identities produces
two independent token instances, and destroying the registry invokes
`destroy()` on both; but the map is not cleared, so a subsequent `getTokenFor`
for either identity still returns the (destroyed) cached instance rather than
throwing `cloudservices-token-not-registered`. -/
theorem C2_amended (s : RegState) (u1 u2 : TokenUrl) (hne : u1 ≠ u2)
    (h1 : mapGet s.tokens u1 = none) (h2 : mapGet s.tokens u2 = none) :
    (registerTokenUrl s u1 true).2 = Except.ok s.nextId ∧
    (registerTokenUrl (registerTokenUrl s u1 true).1 u2 true).2 = Except.ok (s.nextId + 1) ∧
    s.nextId ≠ s.nextId + 1 ∧
    s.nextId ∈ (destroyReg (registerTokenUrl (registerTokenUrl s u1 true).1 u2 true).1).destroyedIds ∧
    s.nextId + 1 ∈ (destroyReg (registerTokenUrl (registerTokenUrl s u1 true).1 u2 true).1).destroyedIds ∧
    (getTokenFor (destroyReg (registerTokenUrl (registerTokenUrl s u1 true).1 u2 true).1) u1).2 = Except.ok s.nextId ∧
    (getTokenFor (destroyReg (registerTokenUrl (registerTokenUrl s u1 true).1 u2 true).1) u2).2 = Except.ok (s.nextId + 1) := by
  rw [registerTokenUrl_miss_ok s u1 h1]
  have h2' : mapGet (mapSet s.tokens u1 s.nextId) u2 = none := by
    rw [mapGet_mapSet_ne _ u1 u2 _ hne]
    exact h2
  have hreg2 := registerTokenUrl_miss_ok
    { s with nextId := s.nextId + 1, fetchCount := s.fetchCount + 1, tokens := mapSet s.tokens u1 s.nextId } u2 h2'
  simp only at hreg2
  rw [hreg2]
  have hg1 : mapGet (mapSet (mapSet s.tokens u1 s.nextId) u2 (s.nextId + 1)) u1 = some s.nextId := by
    rw [mapGet_mapSet_ne _ u2 u1 _ (Ne.symm hne), mapGet_mapSet_self]
  have hg2 : mapGet (mapSet (mapSet s.tokens u1 s.nextId) u2 (s.nextId + 1)) u2 = some (s.nextId + 1) :=
    mapGet_mapSet_self _ _ _
  refine ⟨rfl, rfl, by omega, ?_, ?_, ?_, ?_⟩
  · exact mem_destroyedIds_destroyReg _ _ (mem_mapValues_of_mapGet _ _ _ hg1)
  · exact mem_destroyedIds_destroyReg _ _ (mem_mapValues_of_mapGet _ _ _ hg2)
  · simp [getTokenFor, destroyReg, hg1]
  · simp [getTokenFor, destroyReg, hg2]

theorem C2_amended_witness :
    (registerTokenUrl freshState (TokenUrl.url "u1") true).2 = Except.ok 0 ∧
    (0 : TokenId) ∈ (destroyReg (registerTokenUrl (registerTokenUrl freshState (TokenUrl.url "u1") true).1 (TokenUrl.url "u2") true).1).destroyedIds := by
  have h := C2_amended freshState (TokenUrl.url "u1") (TokenUrl.url "u2") (by decide) rfl rfl
  exact ⟨h.1, h.2.2.2.1⟩

/-- C3.  When the awaited `init()` rejects, the `registerTokenUrl` promise
rejects, the token map and the primary token are unchanged (no entry is
cached for `u`), and a subsequent `getTokenFor( u )` throws
`cloudservices-token-not-registered`. -/
theorem C3_register_failure (s : RegState) (u : TokenUrl)
    (h : mapGet s.tokens u = none) :
    (registerTokenUrl s u false).2 = Except.error CSError.initRejected ∧
    (registerTokenUrl s u false).1.tokens = s.tokens ∧
    (registerTokenUrl s u false).1.token = s.token ∧
    (getTokenFor (registerTokenUrl s u false).1 u).2 = Except.error CSError.tokenNotRegistered := by
  rw [registerTokenUrl_miss_fail s u h]
  exact ⟨rfl, rfl, rfl, by simp [getTokenFor, h]⟩

theorem C3_register_failure_witness :
    (registerTokenUrl freshState (TokenUrl.url "https://ex/token") false).2 = Except.error CSError.initRejected ∧
    (getTokenFor (registerTokenUrl freshState (TokenUrl.url "https://ex/token") false).1 (TokenUrl.url "https://ex/token")).2 = Except.error CSError.tokenNotRegistered := by
  have h := C3_register_failure freshState (TokenUrl.url "https://ex/token") rfl
  exact ⟨h.1, h.2.2.2⟩

/-- C4.  After any sequence of operations on an initialized registry,
`getTokenFor( u )` throws `cloudservices-token-not-registered` exactly when
`u` was never successfully registered — neither by the primary-endpoint path
of `init()` nor by a completed `registerTokenUrl( u )`; a successful
registration resolves to exactly the instance a subsequent `getTokenFor`
returns, and once registered, the same instance is returned after any
further operations. -/
theorem C4_getToken_characterization (cfg : Option TokenUrl) (ok0 : Bool)
    (ops : List Op) (u : TokenUrl) :
    ((getTokenFor (run (init freshState cfg ok0).1 ops) u).2 = Except.error CSError.tokenNotRegistered ↔
      ¬((cfg = some u ∧ tokenUrlTruthy cfg = true ∧ ok0 = true) ∨ Op.register u true ∈ ops)) ∧
    (∀ s t ok, (registerTokenUrl s u ok).2 = Except.ok t →
      (getTokenFor (registerTokenUrl s u ok).1 u).2 = Except.ok t) ∧
    (∀ s t, mapGet s.tokens u = some t → (getTokenFor (run s ops) u).2 = Except.ok t) := by
  refine ⟨?_, ?_, ?_⟩
  · rw [getTokenFor_error_iff, mapGet_run_none, mapGet_init_none]
    tauto
  · intro s t ok h
    rcases hu : mapGet s.tokens u with _ | t0
    · cases ok with
      | true =>
          rw [registerTokenUrl_miss_ok s u hu] at h ⊢
          simp only [] at h
          simp [getTokenFor, mapGet_mapSet_self, h]
      | false =>
          rw [registerTokenUrl_miss_fail s u hu] at h
          exact Except.noConfusion h
    · rw [registerTokenUrl_hit s u t0 ok hu] at h ⊢
      simp only [] at h
      simp [getTokenFor, hu, h]
  · intro s t h
    simp [getTokenFor, mapGet_run_some ops s u t h]

theorem C4_witness :
    (getTokenFor (run (init freshState (some (TokenUrl.url "a")) true).1 []) (TokenUrl.url "b")).2 = Except.error CSError.tokenNotRegistered ∧
    (getTokenFor (registerTokenUrl freshState (TokenUrl.url "a") true).1 (TokenUrl.url "a")).2 = Except.ok 0 := by
  constructor
  · exact (C4_getToken_characterization (some (TokenUrl.url "a")) true [] (TokenUrl.url "b")).1.mpr (by decide)
  · exact (C4_getToken_characterization (some (TokenUrl.url "a")) true [] (TokenUrl.url "a")).2.1 freshState 0 true rfl

/-- C5.  `destroy()` invokes `token.destroy()` on every token cached in
`_tokens`; in particular, when `init()` established a primary token it was
also inserted into `_tokens`, so after any further operations, destroying the
registry destroys the primary token as well. -/
theorem C5_destroy_destroys_all (s : RegState) (cfg : Option TokenUrl)
    (ok : Bool) (t : TokenId) :
    (∀ i ∈ mapValues s.tokens, i ∈ (destroyReg s).destroyedIds) ∧
    ((init freshState cfg ok).1.token = some t →
      ∀ ops, t ∈ (destroyReg (run (init freshState cfg ok).1 ops)).destroyedIds) := by
  constructor
  · exact fun i hi => mem_destroyedIds_destroyReg s i hi
  · intro h ops
    obtain ⟨u, hu⟩ := init_token_established cfg ok t h
    exact mem_destroyedIds_destroyReg _ _
      (mem_mapValues_of_mapGet _ _ _ (mapGet_run_some ops _ u t hu))

theorem C5_witness :
    (0 : TokenId) ∈ (destroyReg { freshState with tokens := [(TokenUrl.url "a", 0)] }).destroyedIds ∧
    (0 : TokenId) ∈ (destroyReg (run (init freshState (some (TokenUrl.url "a")) true).1 [Op.teardown])).destroyedIds := by
  constructor
  · exact (C5_destroy_destroys_all { freshState with tokens := [(TokenUrl.url "a", 0)] }
      (some (TokenUrl.url "a")) true 0).1 0 (by decide)
  · exact (C5_destroy_destroys_all freshState (some (TokenUrl.url "a")) true 0).2 rfl [Op.teardown]

/-- C6.  `destroy()` is idempotent on the registry state: a second call walks
the same (uncleared) map and re-invokes the idempotent `token.destroy()` on
each cached token, changing nothing and throwing nothing (the operation is
total). -/
theorem C6_destroy_idempotent (s : RegState) :
    destroyReg (destroyReg s) = destroyReg s := by
  have h : (mapValues s.tokens).foldl insertId ((mapValues s.tokens).foldl insertId s.destroyedIds) =
      (mapValues s.tokens).foldl insertId s.destroyedIds :=
    foldl_insertId_of_subset _ _ fun x hx => (mem_foldl_insertId _ _ x).mpr (Or.inr hx)
  simp [destroyReg, h]

/-- C7.  Endpoint identities follow JavaScript `Map` key semantics: equal URL
strings are one key, so a second registration with the same string returns
the same cached instance with the state (and hence the fetch count)
unchanged; distinct provider-function references are distinct keys, so
registering both creates two distinct instances and performs two fetches; and
any already-registered identity is returned from the cache without a fresh
initialization. -/
theorem C7_identity_semantics (s : RegState) :
    (∀ str : String, mapGet s.tokens (TokenUrl.url str) = none →
      (registerTokenUrl s (TokenUrl.url str) true).2 = Except.ok s.nextId ∧
      registerTokenUrl (registerTokenUrl s (TokenUrl.url str) true).1 (TokenUrl.url str) true =
        ((registerTokenUrl s (TokenUrl.url str) true).1, Except.ok s.nextId) ∧
      (registerTokenUrl s (TokenUrl.url str) true).1.fetchCount = s.fetchCount + 1) ∧
    (∀ r1 r2 : Nat, r1 ≠ r2 →
      mapGet s.tokens (TokenUrl.provider r1) = none →
      mapGet s.tokens (TokenUrl.provider r2) = none →
      (registerTokenUrl s (TokenUrl.provider r1) true).2 = Except.ok s.nextId ∧
      (registerTokenUrl (registerTokenUrl s (TokenUrl.provider r1) true).1 (TokenUrl.provider r2) true).2 = Except.ok (s.nextId + 1) ∧
      s.nextId ≠ s.nextId + 1 ∧
      (registerTokenUrl (registerTokenUrl s (TokenUrl.provider r1) true).1 (TokenUrl.provider r2) true).1.fetchCount = s.fetchCount + 2) ∧
    (∀ u t ok, mapGet s.tokens u = some t → registerTokenUrl s u ok = (s, Except.ok t)) := by
  refine ⟨?_, ?_, fun u t ok h => registerTokenUrl_hit s u t ok h⟩
  · intro str h
    rw [registerTokenUrl_miss_ok s _ h]
    refine ⟨rfl, ?_, rfl⟩
    exact registerTokenUrl_hit _ _ _ _ (mapGet_mapSet_self _ _ _)
  · intro r1 r2 hne h1 h2
    rw [registerTokenUrl_miss_ok s _ h1]
    have hne' : TokenUrl.provider r1 ≠ TokenUrl.provider r2 := by
      intro he
      exact hne (TokenUrl.provider.inj he)
    have h2' : mapGet (mapSet s.tokens (TokenUrl.provider r1) s.nextId) (TokenUrl.provider r2) = none := by
      rw [mapGet_mapSet_ne _ _ _ _ hne']
      exact h2
    have hreg2 := registerTokenUrl_miss_ok
      { s with nextId := s.nextId + 1, fetchCount := s.fetchCount + 1, tokens := mapSet s.tokens (TokenUrl.provider r1) s.nextId }
      (TokenUrl.provider r2) h2'
    simp only at hreg2
    rw [hreg2]
    exact ⟨rfl, rfl, by omega, rfl⟩

theorem C7_witness :
    registerTokenUrl (registerTokenUrl freshState (TokenUrl.url "a") true).1 (TokenUrl.url "a") true =
      ((registerTokenUrl freshState (TokenUrl.url "a") true).1, Except.ok 0) ∧
    (registerTokenUrl (registerTokenUrl freshState (TokenUrl.provider 0) true).1 (TokenUrl.provider 1) true).2 = Except.ok 1 := by
  constructor
  · exact ((C7_identity_semantics freshState).1 "a" rfl).2.1
  · exact ((C7_identity_semantics freshState).2.1 0 1 (by decide) rfl rfl).2.1

/-- C8.  With no `tokenUrl` configured, `init()` returns successfully in the
degraded mode: `this.token` is set to `null` and no entry is added to
`_tokens` (the whole rest of the state is untouched). -/
theorem C8_no_tokenUrl_degraded (s : RegState) (ok : Bool) :
    init s none ok = ({ s with token := none }, Except.ok ()) := by
  simp [init, tokenUrlTruthy]

/-- C9.  `getTokenFor` is a pure lookup: whether it returns a token or throws
`cloudservices-token-not-registered`, the registry state — in particular the
token map and the primary token — is exactly the state before the call. -/
theorem C9_getToken_pure (s : RegState) (u : TokenUrl) :
    (getTokenFor s u).1 = s := by
  rcases h : mapGet s.tokens u with _ | t <;> simp [getTokenFor, h]

/-- C10.  A token in the `VALID` state holding credential `v` is unchanged by
a failed background refresh: it is not destroyed, stays `VALID`, keeps the
value `v`, and (the refresh step being total) surfaces no error to holders. -/
theorem C10_refresh_failure_retains_value (t : Token) (v : String)
    (hp : t.phase = TokenPhase.valid) (hv : t.value = some v) :
    refreshToken t none = t ∧
    (refreshToken t none).phase = TokenPhase.valid ∧
    (refreshToken t none).value = some v := by
  obtain ⟨ph, val⟩ := t
  simp only [] at hp hv
  subst hp
  subst hv
  exact ⟨rfl, rfl, rfl⟩

theorem C10_refresh_failure_retains_value_witness :
    refreshToken { phase := TokenPhase.valid, value := some "tok-1" } none =
      { phase := TokenPhase.valid, value := some "tok-1" } := by
  exact (C10_refresh_failure_retains_value
    { phase := TokenPhase.valid, value := some "tok-1" } "tok-1" rfl rfl).1

end CloudServicesSpec
